import Mathlib

/-!
Shallow embedding of the order-management system's core (stock reservation
engine over PostgreSQL, cache-aside catalog store, order store with
merge-semantics updates, and the broker's retry/dead-letter handler),
together with proofs of the specification's testable properties.

The stock tables are modelled after `stock/migrations/*.sql`:
`items(id, name, price_id, quantity, reserved_quantity)` with the CHECK
constraints `quantity >= 0` and `0 <= reserved_quantity <= quantity`
(`items_reserved_check`), and `stock_reservations(reservation_id UNIQUE,
order_id, item_id, quantity > 0, status, expires_at)`.  A SQL `UPDATE` is
modelled set-based: it either fails (a CHECK constraint would be violated
by some updated row, making the statement error and the transaction roll
back) or returns the updated table together with the number of affected
rows.  Each Go store method runs in one transaction, modelled by the
functional reading: an `Except.error` result leaves the caller's state
untouched.
-/

namespace OMS

/-- A row of the `items` table (`stock/migrations`): total and reserved
quantity are `INTEGER` columns, modelled as `Int`. -/
structure ItemRow where
  id : String
  name : String
  priceID : String
  quantity : Int
  reserved : Int
deriving DecidableEq, Repr

/-- The wire-level item record (`pb.Item`): `SELECT id, name, price_id,
quantity` — the reserved quantity is never exposed. -/
structure PbItem where
  id : String
  name : String
  priceID : String
  quantity : Int
deriving DecidableEq, Repr

/-- Status column of `stock_reservations`:
`CHECK (status IN ('reserved','confirmed','released','expired'))`. -/
inductive RStatus where
  | reserved
  | confirmed
  | released
  | expired
deriving DecidableEq, Repr

/-- A row of the `stock_reservations` table. -/
structure Resv where
  reservationID : String
  orderID : String
  itemID : String
  quantity : Int
  status : RStatus
  expiresAt : Int
deriving DecidableEq, Repr

/-- The stock database: the `items` table and the `stock_reservations`
table. -/
structure StockState where
  items : List ItemRow
  reservations : List Resv
deriving DecidableEq, Repr

/-- CHECK constraints on an `items` row: `quantity >= 0` (001 schema) and
`reserved_quantity >= 0 AND reserved_quantity <= quantity`
(`items_reserved_check`, migration 002). -/
def itemCheck (it : ItemRow) : Bool :=
  decide (0 ≤ it.quantity) && decide (0 ≤ it.reserved) && decide (it.reserved ≤ it.quantity)

/-- Errors surfaced by the stock store methods.  `dbError` stands for a
statement-level database error (a CHECK or UNIQUE constraint violation
propagated through `ExecContext`); the other constructors mirror the
distinct `fmt.Errorf` sites in the Go code. -/
inductive StockErr where
  | dbError
  | insufficientStock (itemID : String) (requested : Int)
  | noActiveReservation (orderID : String)
  | reservationMismatch (itemID : String)
  | insufficientOrNotFound (itemID : String)
  | itemNotFound (itemID : String)
deriving DecidableEq, Repr

/-- Set-based model of `UPDATE items SET ... WHERE cond`: if every updated
row still satisfies the CHECK constraints the statement returns the new
table and the number of affected rows, otherwise it errors. -/
def sqlUpdateItems (cond : ItemRow → Bool) (f : ItemRow → ItemRow) (l : List ItemRow) :
    Except Unit (List ItemRow × Nat) :=
  if l.all (fun x => !cond x || itemCheck (f x)) then
    .ok (l.map (fun x => if cond x then f x else x), l.countP cond)
  else
    .error ()

/-- Set-based model of `UPDATE stock_reservations SET status = st WHERE
cond` (the status enum CHECK cannot fail for a status from `RStatus`).
Returns the new table and the number of affected rows. -/
def sqlSetResvStatus (cond : Resv → Bool) (st : RStatus) (l : List Resv) :
    List Resv × Nat :=
  (l.map (fun r => if cond r then { r with status := st } else r), l.countP cond)

/-- Model of `INSERT INTO stock_reservations ...`: fails when the row's
`CHECK (quantity > 0)` or the `UNIQUE` constraint on `reservation_id`
would be violated. -/
def sqlInsertResv (r : Resv) (l : List Resv) : Except Unit (List Resv) :=
  if decide (0 < r.quantity) && l.all (fun r0 => r0.reservationID != r.reservationID) then
    .ok (l ++ [r])
  else
    .error ()

/-- `ReservationTTL = 15 * time.Minute` (`part_009`), with one minute as
the time unit. -/
def ReservationTTL : Int := 15

/-- The per-item loop of `PostgresStore.ReserveStock`: the guarded
`UPDATE items SET reserved_quantity = reserved_quantity + $1 WHERE id = $2
AND (quantity - reserved_quantity) >= $1` (zero rows affected means
insufficient stock) followed by the insert of one `'reserved'` row. -/
def reserveLoop (now : Int) (newID orderID : String) :
    List (String × Int) → StockState → Except StockErr StockState
  | [], s => .ok s
  | (i, q) :: rest, s =>
    match sqlUpdateItems
        (fun it => it.id == i && decide (q ≤ it.quantity - it.reserved))
        (fun it => { it with reserved := it.reserved + q }) s.items with
    | .error _ => .error .dbError
    | .ok (items', n) =>
      if n = 0 then .error (.insufficientStock i q)
      else
        match sqlInsertResv
            ⟨newID, orderID, i, q, .reserved, now + ReservationTTL⟩ s.reservations with
        | .error _ => .error .dbError
        | .ok resv' => reserveLoop now newID orderID rest ⟨items', resv'⟩

/-- `PostgresStore.ReserveStock`: generates a reservation id (modelled as
the parameter `newID`, a fresh UUID in the Go code), reserves every
requested item inside one transaction and returns the id.  The `Except`
reading gives the transaction semantics: on error nothing persists. -/
def reserveStock (now : Int) (newID orderID : String) (req : List (String × Int))
    (s : StockState) : Except StockErr (StockState × String) :=
  match reserveLoop now newID orderID req s with
  | .error e => .error e
  | .ok s' => .ok (s', newID)

/-- Predicate of `SELECT ... FROM stock_reservations WHERE order_id = $1
AND status = 'reserved'`. -/
def activeFor (orderID : String) (r : Resv) : Bool :=
  r.orderID == orderID && decide (r.status = RStatus.reserved)

/-- The per-row loop of `PostgresStore.ConfirmReservation`: `UPDATE items
SET quantity = quantity - $1, reserved_quantity = reserved_quantity - $1
WHERE id = $2 AND reserved_quantity >= $1 AND quantity >= $1`; zero rows
affected is a reservation mismatch error. -/
def confirmLoop : List Resv → List ItemRow → Except StockErr (List ItemRow)
  | [], items => .ok items
  | r :: rest, items =>
    match sqlUpdateItems
        (fun it => it.id == r.itemID && decide (r.quantity ≤ it.reserved)
          && decide (r.quantity ≤ it.quantity))
        (fun it =>
          { it with quantity := it.quantity - r.quantity,
                    reserved := it.reserved - r.quantity }) items with
    | .error _ => .error .dbError
    | .ok (items', n) =>
      if n = 0 then .error (.reservationMismatch r.itemID)
      else confirmLoop rest items'

/-- `PostgresStore.ConfirmReservation`: reads the order's `'reserved'`
rows, errors if there are none, decrements each item's quantity and
reserved quantity, then marks all the order's `'reserved'` rows
`'confirmed'`. -/
def confirmReservation (orderID : String) (s : StockState) : Except StockErr StockState :=
  let rs := s.reservations.filter (activeFor orderID)
  if rs.isEmpty then .error (.noActiveReservation orderID)
  else
    match confirmLoop rs s.items with
    | .error e => .error e
    | .ok items' =>
      .ok ⟨items', (sqlSetResvStatus (activeFor orderID) .confirmed s.reservations).1⟩

/-- The per-row loop of `PostgresStore.ReleaseReservation`: `UPDATE items
SET reserved_quantity = reserved_quantity - $1 WHERE id = $2 AND
reserved_quantity >= $1`; zero rows affected is a mismatch error. -/
def releaseLoop : List Resv → List ItemRow → Except StockErr (List ItemRow)
  | [], items => .ok items
  | r :: rest, items =>
    match sqlUpdateItems
        (fun it => it.id == r.itemID && decide (r.quantity ≤ it.reserved))
        (fun it => { it with reserved := it.reserved - r.quantity }) items with
    | .error _ => .error .dbError
    | .ok (items', n) =>
      if n = 0 then .error (.reservationMismatch r.itemID)
      else releaseLoop rest items'

/-- `PostgresStore.ReleaseReservation`: reads the order's `'reserved'`
rows, succeeds as a no-op if there are none, otherwise gives each item's
reserved quantity back and marks the rows `'released'`. -/
def releaseReservation (orderID : String) (s : StockState) : Except StockErr StockState :=
  let rs := s.reservations.filter (activeFor orderID)
  if rs.isEmpty then .ok s
  else
    match releaseLoop rs s.items with
    | .error e => .error e
    | .ok items' =>
      .ok ⟨items', (sqlSetResvStatus (activeFor orderID) .released s.reservations).1⟩

/-- Predicate of `status = 'reserved' AND expires_at < NOW()`. -/
def expiredAt (now : Int) (r : Resv) : Bool :=
  decide (r.status = RStatus.reserved) && decide (r.expiresAt < now)

/-- The per-row loop of `PostgresStore.CleanupExpiredReservations`: the
same guarded decrement of `reserved_quantity` as the release loop, but
the Go code never inspects `RowsAffected` here, so a row whose guard
fails is skipped silently instead of aborting the transaction. -/
def cleanupLoop : List Resv → List ItemRow → Except StockErr (List ItemRow)
  | [], items => .ok items
  | r :: rest, items =>
    match sqlUpdateItems
        (fun it => it.id == r.itemID && decide (r.quantity ≤ it.reserved))
        (fun it => { it with reserved := it.reserved - r.quantity }) items with
    | .error _ => .error .dbError
    | .ok (items', _) => cleanupLoop rest items'

/-- `PostgresStore.CleanupExpiredReservations`: reads all expired
`'reserved'` rows, releases their reserved quantity (ignoring per-row
affected counts), marks them `'expired'`, and returns the number of rows
affected by that final status update. -/
def cleanupExpiredReservations (now : Int) (s : StockState) :
    Except StockErr (StockState × Nat) :=
  let exp := s.reservations.filter (expiredAt now)
  if exp.isEmpty then .ok (s, 0)
  else
    match cleanupLoop exp s.items with
    | .error e => .error e
    | .ok items' =>
      let (resv', n) := sqlSetResvStatus (expiredAt now) .expired s.reservations
      .ok (⟨items', resv'⟩, n)

/-- `PostgresStore.DecrementQuantity`: `UPDATE items SET quantity =
quantity - $1 WHERE id = $2 AND quantity >= $1`; zero rows affected means
insufficient stock or a missing item. -/
def decrementQuantity (id : String) (amount : Int) (s : StockState) :
    Except StockErr StockState :=
  match sqlUpdateItems
      (fun it => it.id == id && decide (amount ≤ it.quantity))
      (fun it => { it with quantity := it.quantity - amount }) s.items with
  | .error _ => .error .dbError
  | .ok (items', n) =>
    if n = 0 then .error (.insufficientOrNotFound id)
    else .ok { s with items := items' }

/-- `PostgresStore.UpdateQuantity`: `UPDATE items SET quantity = $1 WHERE
id = $2`; zero rows affected means the item was not found. -/
def updateQuantity (id : String) (quantity : Int) (s : StockState) :
    Except StockErr StockState :=
  match sqlUpdateItems (fun it => it.id == id)
      (fun it => { it with quantity := quantity }) s.items with
  | .error _ => .error .dbError
  | .ok (items', n) =>
    if n = 0 then .error (.itemNotFound id)
    else .ok { s with items := items' }

/-- A stock state whose item rows all satisfy the `items` CHECK
constraints — every state actually reachable in the database. -/
def StateOk (s : StockState) : Prop :=
  ∀ it ∈ s.items, itemCheck it = true

instance (s : StockState) : Decidable (StateOk s) := by
  unfold StateOk; infer_instance

/-! ### Cache-aside catalog store (`CachedStore` / `ItemCache`, part_006)

The Redis cache is modelled as an association list from item id to the
cached `PbItem`; the durable side is the `StockState` above. -/

/-- The Redis side of `ItemCache`, keyed by `item:<id>`. -/
abbrev Cache := List (String × PbItem)

/-- Projection of an `items` row to the wire record, as in
`PostgresStore.GetItem`'s `SELECT id, name, price_id, quantity`. -/
def rowToPb (it : ItemRow) : PbItem :=
  ⟨it.id, it.name, it.priceID, it.quantity⟩

/-- `ItemCache.GetItem`: a plain key lookup (`redis.Nil` is a miss). -/
def cacheLookup (id : String) (c : Cache) : Option PbItem :=
  List.lookup id c

/-- `ItemCache.SetItem`: store under the item's key, replacing any
previous value. -/
def cacheSetItem (it : PbItem) : Cache → Cache
  | [] => [(it.id, it)]
  | (k, v) :: rest =>
    if k == it.id then (it.id, it) :: rest else (k, v) :: cacheSetItem it rest

/-- `ItemCache.InvalidateItem`: delete the item's key. -/
def cacheDelItem (id : String) (c : Cache) : Cache :=
  c.filter (fun kv => kv.1 != id)

/-- `PostgresStore.GetItem`: `SELECT id, name, price_id, quantity FROM
items WHERE id = $1`, `sql.ErrNoRows` becoming an item-not-found error. -/
def pgGetItem (id : String) (s : StockState) : Except StockErr PbItem :=
  match s.items.find? (fun it => it.id == id) with
  | some it => .ok (rowToPb it)
  | none => .error (.itemNotFound id)

/-- `CachedStore.GetItem`: return a cache hit immediately; on a miss
query the durable store and populate the cache with the result. -/
def cachedGetItem (id : String) (s : StockState) (c : Cache) :
    Except StockErr (PbItem × Cache) :=
  match cacheLookup id c with
  | some it => .ok (it, c)
  | none =>
    match pgGetItem id s with
    | .error e => .error e
    | .ok it => .ok (it, cacheSetItem it c)

/-- `CachedStore.DecrementQuantity`: write the durable store first and
only on success delete the cache entry (the new value is not written into
the cache). -/
def cachedDecrementQuantity (id : String) (amount : Int) (s : StockState) (c : Cache) :
    Except StockErr (StockState × Cache) :=
  match decrementQuantity id amount s with
  | .error e => .error e
  | .ok s' => .ok (s', cacheDelItem id c)

/-! ### Orders store and merge-semantics update (part_011, orders service)

The MongoDB collection is modelled as an association list from the hex
`_id` to the stored document.  `createdAt` is derived from the ObjectID's
timestamp in the Go code and never stored or updated, so it is omitted
from the model. -/

/-- The stored order document (`bson.M` written by `store.Create`). -/
structure OrderDoc where
  customerID : String
  status : String
  paymentLink : String
  items : List PbItem
deriving DecidableEq, Repr

/-- The wire-level order (`api.Order`) as far as this core reads and
writes it. -/
structure Order where
  id : String
  customerId : String
  status : String
  paymentLink : String
  items : List PbItem
deriving DecidableEq, Repr

/-- The `orders` collection, keyed by the hex ObjectID. -/
abbrev OrdersDB := List (String × OrderDoc)

/-- Errors of the orders store. -/
inductive OrdErr where
  | orderNotFound
deriving DecidableEq, Repr

/-- Model of `collection.UpdateOne(filter by _id, $set update)`: modify
the first document whose key matches and report the matched count
(0 or 1). -/
def updateOne (orderID : String) (f : OrderDoc → OrderDoc) :
    OrdersDB → OrdersDB × Nat
  | [] => ([], 0)
  | (k, d) :: rest =>
    if k == orderID then ((k, f d) :: rest, 1)
    else ((k, d) :: (updateOne orderID f rest).1, (updateOne orderID f rest).2)

/-- `store.Update`: build a `$set` document from the non-empty fields of
the partial order (only `status` and `paymentLink` are ever merged);
return immediately when there is nothing to update, otherwise apply
`UpdateOne` and report `ErrOrderNotFound` on a zero matched count. -/
def storeUpdate (orderID : String) (o : Order) (db : OrdersDB) :
    Except OrdErr OrdersDB :=
  if o.status == "" && o.paymentLink == "" then .ok db
  else
    match updateOne orderID
        (fun d =>
          { d with
            status := if o.status == "" then d.status else o.status,
            paymentLink := if o.paymentLink == "" then d.paymentLink else o.paymentLink })
        db with
    | (db', n) => if n = 0 then .error .orderNotFound else .ok db'

/-- `store.Get`: `FindOne` by `_id`, mapping the document back to an
`api.Order` (items and all), `mongo.ErrNoDocuments` becoming
`ErrOrderNotFound`. -/
def storeGet (orderID : String) (db : OrdersDB) : Except OrdErr Order :=
  match List.lookup orderID db with
  | some d => .ok ⟨orderID, d.customerID, d.status, d.paymentLink, d.items⟩
  | none => .error .orderNotFound

/-- `service.UpdateOrder`: apply the merge-semantics store update, then
read the full order back and return it. -/
def serviceUpdateOrder (o : Order) (db : OrdersDB) :
    Except OrdErr (Order × OrdersDB) :=
  match storeUpdate o.id o db with
  | .error e => .error e
  | .ok db' =>
    match storeGet o.id db' with
    | .error e => .error e
    | .ok r => .ok (r, db')

/-- Rank of an order status along
`pending < waiting_payment < paid < preparing < ready`. -/
def statusRank (st : String) : Option Nat :=
  if st = "pending" then some 0
  else if st = "waiting_payment" then some 1
  else if st = "paid" then some 2
  else if st = "preparing" then some 3
  else if st = "ready" then some 4
  else none

/-- `new` is a strictly backward move from `cur` along the status
order. -/
def statusBackward (cur new : String) : Bool :=
  match statusRank cur, statusRank new with
  | some a, some b => decide (b < a)
  | _, _ => false

/-- `new` is a forward (non-decreasing) move from `cur` along the status
order. -/
def statusForward (cur new : String) : Bool :=
  match statusRank cur, statusRank new with
  | some a, some b => decide (a ≤ b)
  | _, _ => false

/-! ### Broker retry handler (`common/broker/broker.go`) -/

/-- An AMQP header value: the retry counter is stored as an `int64`;
other values (trace context and the like) are opaque strings. -/
inductive HVal where
  | int (n : Int)
  | str (s : String)
deriving DecidableEq, Repr

/-- The AMQP header table. -/
abbrev Headers := List (String × HVal)

/-- An inbound delivery as `HandleRetry` sees it: the header table may be
nil, and the original exchange and routing key ride along. -/
structure Delivery where
  headers : Option Headers
  exchange : String
  routingKey : String
  body : String
deriving DecidableEq, Repr

/-- What `HandleRetry` does with the channel and the delivery: positively
acknowledge (`d.Ack`), negatively acknowledge (`d.Nack multiple requeue`),
or re-publish to an exchange/routing key with headers, a body, the
persistent delivery mode flag, and the number of time units slept
beforehand. -/
inductive RetryAction where
  | ack (multiple : Bool)
  | nack (multiple requeue : Bool)
  | publish (exchange routingKey : String) (headers : Headers) (body : String)
      (persistent : Bool) (sleptUnits : Int)
deriving DecidableEq, Repr

/-- `MaxRetryCount = 3`. -/
def MaxRetryCount : Int := 3

/-- Read `d.Headers["x-retry-count"].(int64)`: a missing key or a value
of another type yields 0. -/
def readRetryCount (h : Headers) : Int :=
  match List.lookup "x-retry-count" h with
  | some (.int n) => n
  | _ => 0

/-- Write a header key, replacing an existing binding. -/
def setHeader (k : String) (v : HVal) : Headers → Headers
  | [] => [(k, v)]
  | (k0, v0) :: rest =>
    if k0 == k then (k, v) :: rest else (k0, v0) :: setHeader k v rest

/-- `broker.HandleRetry`: initialise the header table if nil, increment
the retry counter, and either dead-letter via `Nack(false, false)` once
the counter reaches `MaxRetryCount`, or sleep `count` time units and
re-publish the body to the original exchange and routing key with the
updated headers, marked persistent. -/
def handleRetry (d : Delivery) : RetryAction :=
  let h := d.headers.getD []
  let n := readRetryCount h + 1
  let h' := setHeader "x-retry-count" (.int n) h
  if MaxRetryCount ≤ n then .nack false false
  else .publish d.exchange d.routingKey h' d.body true n

/-! ### Concrete fixtures, used to evaluate the operations on explicit
inputs (the seeded catalog comes from the 001 migration's INSERT). -/

/-- The catalog seeded by the 001 migration. -/
def seedState : StockState :=
  ⟨[⟨"1", "Burger", "price_1SQYsL3th7a1Jo3bsOVNnRpm", 1000, 0⟩,
    ⟨"2", "Pommes", "price_POMMES_TODO", 1000, 0⟩], []⟩

/-- A state with an expired reserved row whose quantity exceeds the
item's reserved quantity (the release guard fails on it). -/
def mismatchState : StockState :=
  ⟨[⟨"1", "Burger", "p1", 10, 3⟩], [⟨"r1", "o1", "1", 5, .reserved, 0⟩]⟩

/-- A state with one expired reserved row whose release guard holds. -/
def expiredOkState : StockState :=
  ⟨[⟨"1", "Burger", "p1", 10, 5⟩], [⟨"r1", "o1", "1", 5, .reserved, 0⟩]⟩

/-- An orders collection holding a single order in status `paid`. -/
def paidOrderDB : OrdersDB :=
  [("o1", ⟨"c7", "paid", "http://pay", [⟨"1", "Burger", "p1", 2⟩]⟩)]

/-- The total quantity a batch of reservation rows charges against one
item id: the sum of `quantity` over the rows whose `item_id` matches.
Used to state the cumulative effect of the confirm loop on the items
table. -/
def itemCharge (rs : List Resv) (i : String) : Int :=
  ((rs.filter (fun r => r.itemID == i)).map Resv.quantity).sum

/-- A state with two `'reserved'` rows for one order (two single-item
reservations of the same order), against two distinct items. -/
def twoRowState : StockState :=
  ⟨[⟨"1", "Burger", "p1", 10, 2⟩, ⟨"2", "Pommes", "p2", 8, 3⟩],
   [⟨"ra", "o1", "1", 2, .reserved, 15⟩, ⟨"rb", "o1", "2", 3, .reserved, 20⟩]⟩

/-! ### Helper lemmas -/

theorem sqlUpdateItems_eq_ok {cond : ItemRow → Bool} {f : ItemRow → ItemRow}
    {l l' : List ItemRow} {n : Nat} :
    sqlUpdateItems cond f l = .ok (l', n) ↔
      ((∀ x ∈ l, cond x = true → itemCheck (f x) = true) ∧
        l' = l.map (fun x => if cond x then f x else x) ∧ n = l.countP cond) := by
  unfold sqlUpdateItems
  split
  · rename_i hall
    simp only [List.all_eq_true, Bool.or_eq_true, Bool.not_eq_true'] at hall
    constructor
    · intro h
      injection h with h
      injection h with h1 h2
      refine ⟨fun x hx hc => ?_, h1.symm, h2.symm⟩
      rcases hall x hx with h | h
      · rw [hc] at h; cases h
      · exact h
    · rintro ⟨-, rfl, rfl⟩; rfl
  · rename_i hall
    constructor
    · intro h; cases h
    · rintro ⟨hck, -, -⟩
      refine absurd (List.all_eq_true.mpr fun x hx => ?_) hall
      by_cases hc : cond x = true
      · simp [hc, hck x hx hc]
      · simp [Bool.not_eq_true] at hc
        simp [hc]

theorem sqlUpdateItems_preserves_check {cond : ItemRow → Bool} {f : ItemRow → ItemRow}
    {l l' : List ItemRow} {n : Nat}
    (h : sqlUpdateItems cond f l = .ok (l', n))
    (hok : ∀ x ∈ l, itemCheck x = true) :
    ∀ y ∈ l', itemCheck y = true := by
  obtain ⟨hg, rfl, -⟩ := sqlUpdateItems_eq_ok.mp h
  intro y hy
  obtain ⟨x, hx, rfl⟩ := List.mem_map.mp hy
  by_cases hc : cond x = true
  · simpa [hc] using hg x hx hc
  · simpa [hc] using hok x hx

theorem reserveLoop_preserves_check {now : Int} {newID orderID : String} :
    ∀ {req : List (String × Int)} {s s' : StockState},
      reserveLoop now newID orderID req s = .ok s' → StateOk s → StateOk s'
  | [], s, s', h, hok => by
    unfold reserveLoop at h
    injection h with h
    exact h ▸ hok
  | (i, q) :: rest, s, s', h, hok => by
    unfold reserveLoop at h
    rcases hu : sqlUpdateItems (fun it => it.id == i && decide (q ≤ it.quantity - it.reserved))
        (fun it => { it with reserved := it.reserved + q }) s.items with _ | ⟨items', n⟩
    · rw [hu] at h; cases h
    · rw [hu] at h
      dsimp only at h
      by_cases hn : n = 0

      · rw [if_pos hn] at h; cases h
      · rw [if_neg hn] at h
        rcases hins : sqlInsertResv ⟨newID, orderID, i, q, .reserved, now + ReservationTTL⟩
            s.reservations with _ | resv' <;> rw [hins] at h
        · cases h
        · exact reserveLoop_preserves_check h
            (sqlUpdateItems_preserves_check hu hok)

theorem confirmLoop_preserves_check :
    ∀ {rs : List Resv} {items items' : List ItemRow},
      confirmLoop rs items = .ok items' →
      (∀ x ∈ items, itemCheck x = true) → ∀ y ∈ items', itemCheck y = true
  | [], items, items', h, hok => by
    unfold confirmLoop at h
    injection h with h
    exact h ▸ hok
  | r :: rest, items, items', h, hok => by
    unfold confirmLoop at h
    rcases hu : sqlUpdateItems
        (fun it => it.id == r.itemID && decide (r.quantity ≤ it.reserved)
          && decide (r.quantity ≤ it.quantity))
        (fun it =>
          { it with quantity := it.quantity - r.quantity,
                    reserved := it.reserved - r.quantity }) items with _ | ⟨items1, n⟩
    · rw [hu] at h; cases h
    · rw [hu] at h
      dsimp only at h
      by_cases hn : n = 0

      · rw [if_pos hn] at h; cases h
      · rw [if_neg hn] at h
        exact confirmLoop_preserves_check h (sqlUpdateItems_preserves_check hu hok)

theorem releaseLoop_preserves_check :
    ∀ {rs : List Resv} {items items' : List ItemRow},
      releaseLoop rs items = .ok items' →
      (∀ x ∈ items, itemCheck x = true) → ∀ y ∈ items', itemCheck y = true
  | [], items, items', h, hok => by
    unfold releaseLoop at h
    injection h with h
    exact h ▸ hok
  | r :: rest, items, items', h, hok => by
    unfold releaseLoop at h
    rcases hu : sqlUpdateItems
        (fun it => it.id == r.itemID && decide (r.quantity ≤ it.reserved))
        (fun it => { it with reserved := it.reserved - r.quantity }) items with
        _ | ⟨items1, n⟩
    · rw [hu] at h; cases h
    · rw [hu] at h
      dsimp only at h
      by_cases hn : n = 0

      · rw [if_pos hn] at h; cases h
      · rw [if_neg hn] at h
        exact releaseLoop_preserves_check h (sqlUpdateItems_preserves_check hu hok)

theorem cleanupLoop_preserves_check :
    ∀ {rs : List Resv} {items items' : List ItemRow},
      cleanupLoop rs items = .ok items' →
      (∀ x ∈ items, itemCheck x = true) → ∀ y ∈ items', itemCheck y = true
  | [], items, items', h, hok => by
    unfold cleanupLoop at h
    injection h with h
    exact h ▸ hok
  | r :: rest, items, items', h, hok => by
    unfold cleanupLoop at h
    rcases hu : sqlUpdateItems
        (fun it => it.id == r.itemID && decide (r.quantity ≤ it.reserved))
        (fun it => { it with reserved := it.reserved - r.quantity }) items with
        _ | ⟨items1, n⟩
    · rw [hu] at h; cases h
    · rw [hu] at h
      dsimp only at h
      exact cleanupLoop_preserves_check h (sqlUpdateItems_preserves_check hu hok)

end OMS

namespace OMS

theorem activeFor_released (o : String) (r : Resv) :
    activeFor o { r with status := RStatus.released } = false := by
  simp [activeFor]

theorem activeFor_confirmed (o : String) (r : Resv) :
    activeFor o { r with status := RStatus.confirmed } = false := by
  simp [activeFor]

theorem expiredAt_expired (now : Int) (r : Resv) :
    expiredAt now { r with status := RStatus.expired } = false := by
  simp [expiredAt]

theorem filter_setStatus_nil {p : Resv → Bool} {st : RStatus}
    (hst : ∀ r, p r = true → p { r with status := st } = false) :
    ∀ l : List Resv,
      (l.map (fun r => if p r then { r with status := st } else r)).filter p = []
  | [] => rfl
  | r :: rest => by
    by_cases hc : p r = true
    · simp [hc, hst r hc, filter_setStatus_nil hst rest]
    · simp [hc, filter_setStatus_nil hst rest]

/-! ### C1: the items invariant -/

/-- C1: after every operation of this core (ReserveStock,
ConfirmReservation, ReleaseReservation, CleanupExpiredReservations,
DecrementQuantity, UpdateQuantity), every item row still satisfies
`0 ≤ reserved_quantity ≤ quantity`: any statement that would break the
`items_reserved_check` CHECK constraint errors out and the transaction
leaves no trace. -/
theorem claim_C1_stock_invariant_preserved :
    (∀ now newID orderID req s out,
      reserveStock now newID orderID req s = .ok out → StateOk s → StateOk out.1) ∧
    (∀ orderID s s',
      confirmReservation orderID s = .ok s' → StateOk s → StateOk s') ∧
    (∀ orderID s s',
      releaseReservation orderID s = .ok s' → StateOk s → StateOk s') ∧
    (∀ now s out,
      cleanupExpiredReservations now s = .ok out → StateOk s → StateOk out.1) ∧
    (∀ id amount s s',
      decrementQuantity id amount s = .ok s' → StateOk s → StateOk s') ∧
    (∀ id q s s',
      updateQuantity id q s = .ok s' → StateOk s → StateOk s') := by
  refine ⟨?_, ?_, ?_, ?_, ?_, ?_⟩
  · intro now newID orderID req s out h hok
    unfold reserveStock at h
    rcases hl : reserveLoop now newID orderID req s with _ | s' <;> rw [hl] at h
    · cases h
    · injection h with h
      subst h
      exact reserveLoop_preserves_check hl hok
  · intro orderID s s' h hok
    unfold confirmReservation at h
    dsimp only at h
    split at h
    · cases h
    · rcases hcl : confirmLoop (s.reservations.filter (activeFor orderID)) s.items with
          _ | items' <;> rw [hcl] at h
      · cases h
      · injection h with h
        subst h
        exact confirmLoop_preserves_check hcl hok
  · intro orderID s s' h hok
    unfold releaseReservation at h
    dsimp only at h
    split at h
    · injection h with h
      subst h
      exact hok
    · rcases hcl : releaseLoop (s.reservations.filter (activeFor orderID)) s.items with
          _ | items' <;> rw [hcl] at h
      · cases h
      · injection h with h
        subst h
        exact releaseLoop_preserves_check hcl hok
  · intro now s out h hok
    unfold cleanupExpiredReservations at h
    dsimp only at h
    split at h
    · injection h with h
      subst h
      exact hok
    · rcases hcl : cleanupLoop (s.reservations.filter (expiredAt now)) s.items with
          _ | items' <;> rw [hcl] at h
      · cases h
      · injection h with h
        subst h
        exact cleanupLoop_preserves_check hcl hok
  · intro id amount s s' h hok
    unfold decrementQuantity at h
    rcases hu : sqlUpdateItems (fun it => it.id == id && decide (amount ≤ it.quantity))
        (fun it => { it with quantity := it.quantity - amount }) s.items with
        _ | ⟨items', n⟩ <;> rw [hu] at h
    · cases h
    · dsimp only at h
      split at h
      · cases h
      · injection h with h
        subst h
        exact sqlUpdateItems_preserves_check hu hok
  · intro id q s s' h hok
    unfold updateQuantity at h
    rcases hu : sqlUpdateItems (fun it => it.id == id)
        (fun it => { it with quantity := q }) s.items with _ | ⟨items', n⟩ <;> rw [hu] at h
    · cases h
    · dsimp only at h
      split at h
      · cases h
      · injection h with h
        subst h
        exact sqlUpdateItems_preserves_check hu hok

/-- Witness for C1: a concrete decrement on the seeded catalog keeps the
invariant. -/
theorem claim_C1_witness :
    StateOk (⟨[⟨"1", "Burger", "price_1SQYsL3th7a1Jo3bsOVNnRpm", 997, 0⟩,
      ⟨"2", "Pommes", "price_POMMES_TODO", 1000, 0⟩], []⟩ : StockState) :=
  claim_C1_stock_invariant_preserved.2.2.2.2.1 "1" 3 seedState _ rfl (by decide)

/-! ### C2: multi-item ReserveStock against the schema -/

/-- C2 (code bug): `ReserveStock` inserts one `stock_reservations` row
per item of the batch, all sharing one freshly generated reservation id,
but the 002 migration declares `reservation_id` `UNIQUE`.  On the seeded
catalog, a two-item batch therefore dies on its second INSERT with a
constraint error — neither the promised success nor an
`InsufficientStock` failure — and the transaction rolls back.  (A
single-item batch on the same state succeeds, showing the guard itself is
fine.) -/
theorem claim_C2_multi_item_reserve_fails :
    reserveStock 0 "res-1" "o1" [("1", 1), ("2", 1)] seedState = .error .dbError ∧
    reserveStock 0 "res-1" "o1" [("1", 1)] seedState =
      .ok (⟨[⟨"1", "Burger", "price_1SQYsL3th7a1Jo3bsOVNnRpm", 1000, 1⟩,
        ⟨"2", "Pommes", "price_POMMES_TODO", 1000, 0⟩],
        [⟨"res-1", "o1", "1", 1, .reserved, 15⟩]⟩, "res-1") :=
  ⟨rfl, rfl⟩

end OMS

namespace OMS

/-! ### C5: idempotence of ReleaseReservation -/

/-- C5: `ReleaseReservation` is idempotent.  When the order has no
`'reserved'` rows it returns success with the state completely unchanged
(no item quantities, no reservation rows); and after any successful
release, releasing the same order again succeeds and changes nothing,
because the first call left no `'reserved'` rows behind. -/
theorem claim_C5_release_idempotent :
    (∀ orderID s, s.reservations.filter (activeFor orderID) = [] →
      releaseReservation orderID s = .ok s) ∧
    (∀ orderID s s', releaseReservation orderID s = .ok s' →
      releaseReservation orderID s' = .ok s') := by
  have base : ∀ orderID (s : StockState), s.reservations.filter (activeFor orderID) = [] →
      releaseReservation orderID s = .ok s := by
    intro o s h
    unfold releaseReservation
    dsimp only
    rw [h]
    rfl
  refine ⟨base, ?_⟩
  intro o s s' h
  unfold releaseReservation at h
  dsimp only at h
  by_cases he : ((s.reservations.filter (activeFor o)).isEmpty : Bool) = true
  · rw [if_pos he] at h
    injection h with h
    subst h
    unfold releaseReservation
    dsimp only
    rw [if_pos he]
  · rw [if_neg he] at h
    rcases hcl : releaseLoop (s.reservations.filter (activeFor o)) s.items with _ | items' <;>
      rw [hcl] at h
    · cases h
    · injection h with h
      subst h
      refine base o _ ?_
      show ((sqlSetResvStatus (activeFor o) .released s.reservations).1.filter (activeFor o)) = []
      unfold sqlSetResvStatus
      exact filter_setStatus_nil (fun r _ => activeFor_released o r) s.reservations

/-- Witness for C5: releasing an order with no reserved rows on the
seeded catalog is a successful no-op, and a release that did release a
row is followed by a second successful no-op release. -/
theorem claim_C5_witness :
    releaseReservation "o9" seedState = .ok seedState ∧
    releaseReservation "o1"
      (⟨[⟨"1", "Burger", "p1", 10, 0⟩], [⟨"r1", "o1", "1", 5, .released, 0⟩]⟩ : StockState) =
      .ok ⟨[⟨"1", "Burger", "p1", 10, 0⟩], [⟨"r1", "o1", "1", 5, .released, 0⟩]⟩ :=
  ⟨claim_C5_release_idempotent.1 "o9" seedState rfl,
    claim_C5_release_idempotent.2 "o1" expiredOkState _ rfl⟩

end OMS

namespace OMS

/-! ### C6: the expiry sweep versus ReleaseReservation -/

theorem releaseLoop_ok_cleanupLoop :
    ∀ {rs : List Resv} {items items' : List ItemRow},
      releaseLoop rs items = .ok items' → cleanupLoop rs items = .ok items'
  | [], items, items', h => by
    unfold releaseLoop at h
    unfold cleanupLoop
    exact h
  | r :: rest, items, items', h => by
    unfold releaseLoop at h
    unfold cleanupLoop
    rcases hu : sqlUpdateItems
        (fun it => it.id == r.itemID && decide (r.quantity ≤ it.reserved))
        (fun it => { it with reserved := it.reserved - r.quantity }) items with
        _ | ⟨items1, n⟩
    · rw [hu] at h; cases h
    · rw [hu] at h
      dsimp only at h ⊢
      by_cases hn : n = 0

      · rw [if_pos hn] at h; cases h
      · rw [if_neg hn] at h
        exact releaseLoop_ok_cleanupLoop h

/-- C6 counterexample: the sweep does NOT have the same failure behaviour
as `ReleaseReservation`.  On a state holding one expired `'reserved'` row
of 5 units against an item with only 3 units reserved, the sweep succeeds
— it ignores the zero affected-rows count of the guarded decrement,
leaves the item untouched, still marks the row `'expired'` and counts it
— while `ReleaseReservation` for the same order aborts with a
reservation-mismatch error. -/
theorem claim_C6_cleanup_differs_from_release :
    cleanupExpiredReservations 1 mismatchState =
      .ok (⟨[⟨"1", "Burger", "p1", 10, 3⟩], [⟨"r1", "o1", "1", 5, .expired, 0⟩]⟩, 1) ∧
    releaseReservation "o1" mismatchState = .error (.reservationMismatch "1") :=
  ⟨rfl, rfl⟩

/-- C6 (amended): `CleanupExpiredReservations` processes exactly the rows
with status `'reserved'` and `expires_at` in the past: it returns their
count, marks exactly those rows `'expired'` (every other row — in
particular every non-expired `'reserved'` row — is left untouched), and
applies to each the same guarded decrement of the item's
`reserved_quantity` as `ReleaseReservation` — except that a failing guard
is skipped silently instead of aborting, so whenever the release-style
loop would succeed the sweep computes the very same items table. -/
theorem claim_C6_cleanup_amended (now : Int) (s : StockState) (out : StockState × Nat)
    (h : cleanupExpiredReservations now s = .ok out) :
    out.2 = s.reservations.countP (expiredAt now) ∧
    out.1.reservations = s.reservations.map
      (fun r => if expiredAt now r then { r with status := RStatus.expired } else r) ∧
    (∀ items', releaseLoop (s.reservations.filter (expiredAt now)) s.items = .ok items' →
      out.1.items = items') := by
  unfold cleanupExpiredReservations at h
  dsimp only at h
  by_cases he : ((s.reservations.filter (expiredAt now)).isEmpty : Bool) = true
  · rw [if_pos he] at h
    injection h with h
    subst h
    rw [List.isEmpty_iff] at he
    have hnone : ∀ r ∈ s.reservations, ¬ expiredAt now r = true := by
      intro r hr hc
      have : r ∈ s.reservations.filter (expiredAt now) := List.mem_filter.mpr ⟨hr, hc⟩
      rw [he] at this
      cases this
    refine ⟨?_, ?_, ?_⟩
    · exact (List.countP_eq_zero.mpr hnone).symm
    · rw [List.map_congr_left (g := id) fun r hr => by simp [hnone r hr]]
      simp
    · intro items' hrel
      rw [he] at hrel
      unfold releaseLoop at hrel
      injection hrel
  · rw [if_neg he] at h
    rcases hcl : cleanupLoop (s.reservations.filter (expiredAt now)) s.items with _ | items1 <;>
      rw [hcl] at h
    · cases h
    · injection h with h
      subst h
      refine ⟨rfl, rfl, ?_⟩
      intro items' hrel
      have := releaseLoop_ok_cleanupLoop hrel
      rw [hcl] at this
      injection this

/-- Witness for C6's amended theorem: on a state with one expired
reserved row whose guard holds, the sweep returns count 1 and computes
the released items table. -/
theorem claim_C6_witness :
    cleanupExpiredReservations 1 expiredOkState =
      .ok (⟨[⟨"1", "Burger", "p1", 10, 0⟩], [⟨"r1", "o1", "1", 5, .expired, 0⟩]⟩, 1) ∧
    (1 : Nat) = expiredOkState.reservations.countP (expiredAt 1) ∧
    ((⟨[⟨"1", "Burger", "p1", 10, 0⟩], [⟨"r1", "o1", "1", 5, .expired, 0⟩]⟩ : StockState),
      (1 : Nat)).1.items = [⟨"1", "Burger", "p1", 10, 0⟩] :=
  ⟨rfl, (claim_C6_cleanup_amended 1 expiredOkState _ rfl).1,
    (claim_C6_cleanup_amended 1 expiredOkState _ rfl).2.2 _ rfl⟩

end OMS

namespace OMS

/-! ### C3: ConfirmReservation -/

theorem sqlUpdateItems_single {cond : ItemRow → Bool} {f : ItemRow → ItemRow}
    (pre post : List ItemRow) (it : ItemRow)
    (hpre : ∀ x ∈ pre, cond x = false) (hpost : ∀ x ∈ post, cond x = false)
    (hit : cond it = true) (hcheck : itemCheck (f it) = true) :
    sqlUpdateItems cond f (pre ++ it :: post) = .ok (pre ++ f it :: post, 1) := by
  refine sqlUpdateItems_eq_ok.mpr ⟨?_, ?_, ?_⟩
  · intro x hx hc
    rcases List.mem_append.mp hx with hx | hx
    · rw [hpre x hx] at hc; cases hc
    · rcases List.mem_cons.mp hx with rfl | hx
      · exact hcheck
      · rw [hpost x hx] at hc; cases hc
  · have hmp : pre.map (fun x => if cond x then f x else x) = pre := by
      rw [List.map_congr_left (g := id) fun x hx => by simp [hpre x hx]]
      simp
    have hms : post.map (fun x => if cond x then f x else x) = post := by
      rw [List.map_congr_left (g := id) fun x hx => by simp [hpost x hx]]
      simp
    rw [List.map_append, List.map_cons, hmp, hms, if_pos hit]
  · have hcp : pre.countP cond = 0 :=
      List.countP_eq_zero.mpr fun x hx => by simp [hpre x hx]
    have hcs : post.countP cond = 0 :=
      List.countP_eq_zero.mpr fun x hx => by simp [hpost x hx]
    rw [List.countP_append, List.countP_cons, hcp, hcs, hit]
    simp

theorem sqlInsertResv_ok {r : Resv} {l : List Resv} (hq : 0 < r.quantity)
    (hid : ∀ r0 ∈ l, r0.reservationID ≠ r.reservationID) :
    sqlInsertResv r l = .ok (l ++ [r]) := by
  unfold sqlInsertResv
  rw [if_pos]
  rw [Bool.and_eq_true]
  refine ⟨decide_eq_true hq, List.all_eq_true.mpr fun x hx => ?_⟩
  simpa using hid x hx

theorem itemCharge_cons (r : Resv) (rest : List Resv) (i : String) :
    itemCharge (r :: rest) i =
      (if r.itemID == i then r.quantity else 0) + itemCharge rest i := by
  unfold itemCharge
  rw [List.filter_cons]
  by_cases h : (r.itemID == i) = true
  · rw [if_pos h, if_pos h, List.map_cons, List.sum_cons]
  · rw [if_neg h, if_neg h, zero_add]

/-- The cumulative effect of the confirm loop on the items table: when
item ids are pairwise distinct (`items.id` is the PRIMARY KEY), a
successful run decrements every item's quantity and reserved quantity by
the total quantity the processed reservation rows charge against its id —
success itself forces each row's guarded UPDATE to have hit its item. -/
theorem confirmLoop_ok_items :
    ∀ (rs : List Resv) (items items' : List ItemRow),
      (items.map ItemRow.id).Nodup →
      confirmLoop rs items = .ok items' →
      items' = items.map (fun x =>
        { x with quantity := x.quantity - itemCharge rs x.id,
                 reserved := x.reserved - itemCharge rs x.id })
  | [], items, items', hnd, h => by
    unfold confirmLoop at h
    injection h with h
    subst h
    symm
    rw [List.map_congr_left (g := id) ?_]
    · rw [List.map_id]
    · intro x hx
      simp [itemCharge]
  | r :: rest, items, items', hnd, h => by
    unfold confirmLoop at h
    rcases hu : sqlUpdateItems
        (fun it => it.id == r.itemID && decide (r.quantity ≤ it.reserved)
          && decide (r.quantity ≤ it.quantity))
        (fun it =>
          { it with quantity := it.quantity - r.quantity,
                    reserved := it.reserved - r.quantity }) items with _ | ⟨items1, n⟩
    · rw [hu] at h
      cases h
    · rw [hu] at h
      dsimp only at h
      by_cases hn : n = 0
      · rw [if_pos hn] at h
        cases h
      · rw [if_neg hn] at h
        obtain ⟨-, hmape, hcnt⟩ := sqlUpdateItems_eq_ok.mp hu
        have hnd1 : (items1.map ItemRow.id).Nodup := by
          rw [hmape, List.map_map]
          have hfid : (ItemRow.id ∘ fun x =>
              if (x.id == r.itemID && decide (r.quantity ≤ x.reserved)
                && decide (r.quantity ≤ x.quantity)) then
                { x with quantity := x.quantity - r.quantity,
                         reserved := x.reserved - r.quantity }
              else x) = ItemRow.id := by
            funext x
            by_cases hc : (x.id == r.itemID && decide (r.quantity ≤ x.reserved)
                && decide (r.quantity ≤ x.quantity)) = true
            · simp [Function.comp, hc]
            · simp [Function.comp, hc]
          rw [hfid]
          exact hnd
        have hexy : ∃ y ∈ items, (y.id == r.itemID && decide (r.quantity ≤ y.reserved)
            && decide (r.quantity ≤ y.quantity)) = true := by
          by_contra hno
          push_neg at hno
          refine hn (hcnt.trans (List.countP_eq_zero.mpr ?_))
          intro x hx hc
          exact (hno x hx) hc
        have hrec := confirmLoop_ok_items rest items1 items' hnd1 h
        subst hrec
        rw [hmape, List.map_map]
        refine List.map_congr_left ?_
        intro x hx
        dsimp only [Function.comp]
        by_cases hid : (x.id == r.itemID) = true
        · have hcx : (x.id == r.itemID && decide (r.quantity ≤ x.reserved)
              && decide (r.quantity ≤ x.quantity)) = true := by
            obtain ⟨y, hy, hcy⟩ := hexy
            have hxy : x = y := by
              refine List.inj_on_of_nodup_map hnd hx hy ?_
              simp only [Bool.and_eq_true] at hcy
              rw [beq_iff_eq] at hid
              have hyid : y.id = r.itemID := by
                have h1 := hcy.1.1
                rw [beq_iff_eq] at h1
                exact h1
              rw [hid, hyid]
            rw [hxy]
            exact hcy
          have hid' : (r.itemID == x.id) = true := by
            rw [beq_iff_eq] at hid ⊢
            exact hid.symm
          rw [if_pos hcx, itemCharge_cons, if_pos hid']
          dsimp only
          simp only [ItemRow.mk.injEq, true_and]
          refine ⟨?_, ?_⟩ <;> omega
        · have hcx : (x.id == r.itemID && decide (r.quantity ≤ x.reserved)
              && decide (r.quantity ≤ x.quantity)) = false := by
            rw [Bool.not_eq_true] at hid
            simp [hid]
          have hid' : (r.itemID == x.id) = false := by
            rw [Bool.not_eq_true, beq_eq_false_iff_ne] at hid
            exact beq_eq_false_iff_ne.mpr fun hh => hid hh.symm
          rw [if_neg (by rw [hcx]; exact Bool.false_ne_true), itemCharge_cons,
            if_neg (by rw [hid']; exact Bool.false_ne_true), zero_add]

end OMS

namespace OMS

/-- C3: `ConfirmReservation` errors (changing nothing — the transaction
never commits) when the order has no `'reserved'` rows; any successful
confirmation marks exactly the order's `'reserved'` rows `'confirmed'`
and — item ids being the table's PRIMARY KEY, hence pairwise distinct —
decrements each item's quantity and reserved quantity by the total the
order's `'reserved'` rows reserve against it (success forces every row's
guarded UPDATE to have hit its item); and the reserve→confirm
round-trip: reserving `n` units of an item and then confirming decreases
the item's quantity by `n` and its reserved quantity by `n` (back to its
original value) and leaves the reservation row `'confirmed'`. -/
theorem claim_C3_confirm_reservation :
    (∀ orderID s, s.reservations.filter (activeFor orderID) = [] →
      confirmReservation orderID s = .error (.noActiveReservation orderID)) ∧
    (∀ orderID s s', confirmReservation orderID s = .ok s' →
      s'.reservations = s.reservations.map
        (fun r => if activeFor orderID r then { r with status := RStatus.confirmed } else r)) ∧
    (∀ orderID s s', (s.items.map ItemRow.id).Nodup →
      confirmReservation orderID s = .ok s' →
      s'.items = s.items.map (fun x =>
        { x with quantity := x.quantity - itemCharge (s.reservations.filter (activeFor orderID)) x.id,
                 reserved := x.reserved - itemCharge (s.reservations.filter (activeFor orderID)) x.id })) ∧
    (∀ now newID o n pre post it resvs,
      (∀ x ∈ pre, x.id ≠ it.id) → (∀ x ∈ post, x.id ≠ it.id) →
      itemCheck it = true → 0 < n → n ≤ it.quantity - it.reserved →
      resvs.filter (activeFor o) = [] →
      (∀ r ∈ resvs, r.reservationID ≠ newID) →
      reserveStock now newID o [(it.id, n)] ⟨pre ++ it :: post, resvs⟩ =
        .ok (⟨pre ++ { it with reserved := it.reserved + n } :: post,
              resvs ++ [⟨newID, o, it.id, n, .reserved, now + ReservationTTL⟩]⟩, newID) ∧
      confirmReservation o
          ⟨pre ++ { it with reserved := it.reserved + n } :: post,
            resvs ++ [⟨newID, o, it.id, n, .reserved, now + ReservationTTL⟩]⟩ =
        .ok ⟨pre ++ { it with quantity := it.quantity - n } :: post,
            resvs ++ [⟨newID, o, it.id, n, .confirmed, now + ReservationTTL⟩]⟩) := by
  refine ⟨?_, ?_, ?_, ?_⟩
  · intro o s h
    unfold confirmReservation
    dsimp only
    rw [h]
    rfl
  · intro o s s' h
    unfold confirmReservation at h
    dsimp only at h
    split at h
    · cases h
    · rcases hcl : confirmLoop (s.reservations.filter (activeFor o)) s.items with _ | items1 <;>
        rw [hcl] at h
      · cases h
      · injection h with h
        subst h
        rfl
  · intro o s s' hnd h
    unfold confirmReservation at h
    dsimp only at h
    split at h
    · cases h
    · rcases hcl : confirmLoop (s.reservations.filter (activeFor o)) s.items with _ | items1 <;>
        rw [hcl] at h
      · cases h
      · injection h with h
        subst h
        exact confirmLoop_ok_items _ s.items items1 hnd hcl
  · intro now newID o n pre post it resvs hpre hpost hck hn hav hres hid
    simp only [itemCheck, Bool.and_eq_true, decide_eq_true_eq] at hck
    obtain ⟨⟨hq0, hr0⟩, hrq⟩ := hck
    have hres1 : reserveStock now newID o [(it.id, n)] ⟨pre ++ it :: post, resvs⟩ =
        .ok (⟨pre ++ { it with reserved := it.reserved + n } :: post,
          resvs ++ [⟨newID, o, it.id, n, .reserved, now + ReservationTTL⟩]⟩, newID) := by
      unfold reserveStock reserveLoop
      dsimp only
      rw [sqlUpdateItems_single pre post it
        (fun x hx => by simp [hpre x hx]) (fun x hx => by simp [hpost x hx])
        (by simp [hav]) (by simp [itemCheck]; omega)]
      dsimp only
      rw [if_neg one_ne_zero]
      rw [sqlInsertResv_ok hn fun r0 hr => hid r0 hr]
      dsimp only
      unfold reserveLoop
      rfl
    refine ⟨hres1, ?_⟩
    unfold confirmReservation
    dsimp only
    have hrow : activeFor o (⟨newID, o, it.id, n, .reserved, now + ReservationTTL⟩ : Resv)
        = true := by
      simp [activeFor]
    have hnores : ∀ r ∈ resvs, activeFor o r = false := by
      intro r hr
      by_contra hc
      rw [Bool.not_eq_false] at hc
      have : r ∈ resvs.filter (activeFor o) := List.mem_filter.mpr ⟨hr, hc⟩
      rw [hres] at this
      cases this
    have hfil : (resvs ++ [(⟨newID, o, it.id, n, .reserved, now + ReservationTTL⟩ : Resv)]).filter
        (activeFor o) = [⟨newID, o, it.id, n, .reserved, now + ReservationTTL⟩] := by
      rw [List.filter_append, hres]
      simp [hrow]
    rw [hfil]
    rw [if_neg (by simp :
      ¬ ([⟨newID, o, it.id, n, .reserved, now + ReservationTTL⟩] : List Resv).isEmpty = true)]
    unfold confirmLoop
    rw [sqlUpdateItems_single pre post { it with reserved := it.reserved + n }
      (fun x hx => by simp [hpre x hx]) (fun x hx => by simp [hpost x hx])
      (by simp; omega) (by simp [itemCheck]; omega)]
    dsimp only
    rw [if_neg one_ne_zero]
    unfold confirmLoop
    dsimp only
    have hmapres : (resvs ++ [(⟨newID, o, it.id, n, .reserved, now + ReservationTTL⟩ : Resv)]).map
        (fun r => if activeFor o r then { r with status := RStatus.confirmed } else r) =
        resvs ++ [⟨newID, o, it.id, n, .confirmed, now + ReservationTTL⟩] := by
      rw [List.map_append]
      rw [List.map_congr_left (g := id) fun r hr => by simp [hnores r hr]]
      simp [hrow]
    simp only [sqlSetResvStatus]
    rw [hmapres]
    simp [add_sub_cancel_right]

end OMS

namespace OMS

/-- Witness for C3: confirming an order with no reservation on the seeded
catalog errors; a two-row confirm (2 Burgers and 3 Pommes reserved for
one order) decrements both items by their reserved amounts; and a
concrete reserve→confirm round-trip of 5 Burgers takes quantity
1000 → 995, reserved 0 → 5 → 0, and leaves the row `'confirmed'`. -/
theorem claim_C3_witness :
    confirmReservation "o9" seedState = .error (.noActiveReservation "o9") ∧
    confirmReservation "o1" twoRowState =
      .ok ⟨[⟨"1", "Burger", "p1", 8, 0⟩, ⟨"2", "Pommes", "p2", 5, 0⟩],
        [⟨"ra", "o1", "1", 2, .confirmed, 15⟩, ⟨"rb", "o1", "2", 3, .confirmed, 20⟩]⟩ ∧
    (⟨[⟨"1", "Burger", "p1", 8, 0⟩, ⟨"2", "Pommes", "p2", 5, 0⟩],
        [⟨"ra", "o1", "1", 2, .confirmed, 15⟩,
          ⟨"rb", "o1", "2", 3, .confirmed, 20⟩]⟩ : StockState).items =
      twoRowState.items.map (fun x =>
        { x with quantity := x.quantity - itemCharge (twoRowState.reservations.filter (activeFor "o1")) x.id,
                 reserved := x.reserved - itemCharge (twoRowState.reservations.filter (activeFor "o1")) x.id }) ∧
    reserveStock 0 "r1" "o1" [("1", 5)]
        ⟨[] ++ (⟨"1", "Burger", "price_1SQYsL3th7a1Jo3bsOVNnRpm", 1000, 0⟩ : ItemRow) ::
          [⟨"2", "Pommes", "price_POMMES_TODO", 1000, 0⟩], []⟩ =
      .ok (⟨[⟨"1", "Burger", "price_1SQYsL3th7a1Jo3bsOVNnRpm", 1000, 5⟩,
            ⟨"2", "Pommes", "price_POMMES_TODO", 1000, 0⟩],
          [⟨"r1", "o1", "1", 5, .reserved, 15⟩]⟩, "r1") ∧
    confirmReservation "o1"
        ⟨[⟨"1", "Burger", "price_1SQYsL3th7a1Jo3bsOVNnRpm", 1000, 5⟩,
          ⟨"2", "Pommes", "price_POMMES_TODO", 1000, 0⟩],
          [⟨"r1", "o1", "1", 5, .reserved, 15⟩]⟩ =
      .ok ⟨[⟨"1", "Burger", "price_1SQYsL3th7a1Jo3bsOVNnRpm", 995, 0⟩,
            ⟨"2", "Pommes", "price_POMMES_TODO", 1000, 0⟩],
          [⟨"r1", "o1", "1", 5, .confirmed, 15⟩]⟩ := by
  refine ⟨claim_C3_confirm_reservation.1 "o9" seedState rfl, rfl,
    claim_C3_confirm_reservation.2.2.1 "o1" twoRowState
      ⟨[⟨"1", "Burger", "p1", 8, 0⟩, ⟨"2", "Pommes", "p2", 5, 0⟩],
        [⟨"ra", "o1", "1", 2, .confirmed, 15⟩, ⟨"rb", "o1", "2", 3, .confirmed, 20⟩]⟩
      (by decide) rfl, ?_, ?_⟩
  · exact (claim_C3_confirm_reservation.2.2.2 0 "r1" "o1" 5 []
      [⟨"2", "Pommes", "price_POMMES_TODO", 1000, 0⟩]
      ⟨"1", "Burger", "price_1SQYsL3th7a1Jo3bsOVNnRpm", 1000, 0⟩ []
      (by simp) (by decide) (by decide) (by decide) (by decide) rfl (by simp)).1
  · exact (claim_C3_confirm_reservation.2.2.2 0 "r1" "o1" 5 []
      [⟨"2", "Pommes", "price_POMMES_TODO", 1000, 0⟩]
      ⟨"1", "Burger", "price_1SQYsL3th7a1Jo3bsOVNnRpm", 1000, 0⟩ []
      (by simp) (by decide) (by decide) (by decide) (by decide) rfl (by simp)).2

end OMS

namespace OMS

/-! ### Orders store lemmas -/

theorem updateOne_lookup_self (orderID : String) (f : OrderDoc → OrderDoc) :
    ∀ db : OrdersDB, (updateOne orderID f db).1.lookup orderID = (db.lookup orderID).map f
  | [] => rfl
  | (k, d) :: rest => by
    unfold updateOne
    by_cases hk : (k == orderID) = true
    · rw [if_pos hk]
      rw [beq_iff_eq] at hk
      subst hk
      simp [List.lookup]
    · rw [if_neg hk]
      have hk' : (orderID == k) = false := by
        rw [Bool.not_eq_true, beq_eq_false_iff_ne] at hk
        exact beq_eq_false_iff_ne.mpr fun h => hk h.symm
      simp only [List.lookup, hk']
      exact updateOne_lookup_self orderID f rest

theorem updateOne_lookup_other (orderID k0 : String) (f : OrderDoc → OrderDoc)
    (hne : k0 ≠ orderID) :
    ∀ db : OrdersDB, (updateOne orderID f db).1.lookup k0 = db.lookup k0
  | [] => rfl
  | (k, d) :: rest => by
    unfold updateOne
    by_cases hk : (k == orderID) = true
    · rw [if_pos hk]
      rw [beq_iff_eq] at hk
      subst hk
      have hk' : (k0 == k) = false := beq_eq_false_iff_ne.mpr hne
      simp [List.lookup, hk']
    · rw [if_neg hk]
      by_cases h0 : (k0 == k) = true
      · simp [List.lookup, h0]
      · rw [Bool.not_eq_true] at h0
        simp only [List.lookup, h0]
        exact updateOne_lookup_other orderID k0 f hne rest

theorem updateOne_matched_zero (orderID : String) (f : OrderDoc → OrderDoc) :
    ∀ db : OrdersDB, (updateOne orderID f db).2 = 0 ↔ db.lookup orderID = none
  | [] => by simp [updateOne]
  | (k, d) :: rest => by
    unfold updateOne
    by_cases hk : (k == orderID) = true
    · rw [if_pos hk]
      rw [beq_iff_eq] at hk
      subst hk
      simp [List.lookup]
    · rw [if_neg hk]
      have hk' : (orderID == k) = false := by
        rw [Bool.not_eq_true, beq_eq_false_iff_ne] at hk
        exact beq_eq_false_iff_ne.mpr fun h => hk h.symm
      simp only [List.lookup, hk']
      exact updateOne_matched_zero orderID f rest

/-- Characterisation of a successful `service.UpdateOrder`: the order
existed, and the stored document afterwards agrees with the old one on
`customerID` and `items` (which `store.Update` never touches), takes the
partial record's `status` and `paymentLink` exactly when those are
non-empty, every other order's document is untouched, and the returned
order is the updated document read back in full. -/
theorem serviceUpdateOrder_spec (o : Order) (db : OrdersDB) (r : Order) (db' : OrdersDB)
    (h : serviceUpdateOrder o db = .ok (r, db')) :
    ∃ d d', db.lookup o.id = some d ∧ db'.lookup o.id = some d' ∧
      d'.customerID = d.customerID ∧ d'.items = d.items ∧
      d'.status = (if o.status == "" then d.status else o.status) ∧
      d'.paymentLink = (if o.paymentLink == "" then d.paymentLink else o.paymentLink) ∧
      r = ⟨o.id, d'.customerID, d'.status, d'.paymentLink, d'.items⟩ ∧
      (∀ k, k ≠ o.id → db'.lookup k = db.lookup k) := by
  unfold serviceUpdateOrder storeUpdate at h
  by_cases hemp : (o.status == "" && o.paymentLink == "") = true
  · rw [if_pos hemp] at h
    dsimp only at h
    unfold storeGet at h
    rcases hl : db.lookup o.id with _ | d
    · rw [hl] at h
      cases h
    · rw [hl] at h
      injection h with h
      injection h with h1 h2
      subst h2
      rw [Bool.and_eq_true] at hemp
      refine ⟨d, d, rfl, hl, rfl, rfl, ?_, ?_, h1.symm, fun k hk => rfl⟩
      · rw [if_pos hemp.1]
      · rw [if_pos hemp.2]
  · rw [if_neg hemp] at h
    dsimp only at h
    by_cases hn : (updateOne o.id
        (fun d => { d with
          status := if o.status == "" then d.status else o.status,
          paymentLink := if o.paymentLink == "" then d.paymentLink else o.paymentLink })
        db).2 = 0
    · rw [if_pos hn] at h
      cases h
    · rw [if_neg hn] at h
      dsimp only at h
      rcases hl : db.lookup o.id with _ | d
      · rw [← updateOne_matched_zero o.id
          (fun d => { d with
            status := if o.status == "" then d.status else o.status,
            paymentLink := if o.paymentLink == "" then d.paymentLink else o.paymentLink })
          db] at hl
        exact absurd hl hn
      · have hl' := updateOne_lookup_self o.id
          (fun d => { d with
            status := if o.status == "" then d.status else o.status,
            paymentLink := if o.paymentLink == "" then d.paymentLink else o.paymentLink }) db
        rw [hl, Option.map_some'] at hl'
        unfold storeGet at h
        rw [hl'] at h
        injection h with h
        injection h with h1 h2
        subst h2
        refine ⟨d, _, rfl, hl', rfl, rfl, rfl, rfl, h1.symm, fun k hk => ?_⟩
        exact updateOne_lookup_other o.id k _ hk db

end OMS

namespace OMS

/-! ### C8: merge-semantics update -/

/-- C8: `UpdateOrder` has merge semantics: only the non-empty fields of
the supplied partial record overwrite the stored document — an empty
`status` or `paymentLink` leaves the stored value, a non-empty one
replaces it, and `customerID` and `items` are never touched by an update
— every other order is untouched, and the call returns the full updated
order read back from the store.  In particular an update carrying only
`status = "ready"` leaves customer, items and payment link unchanged. -/
theorem claim_C8_merge_update (o : Order) (db : OrdersDB) (r : Order) (db' : OrdersDB)
    (h : serviceUpdateOrder o db = .ok (r, db')) :
    ∃ d d', db.lookup o.id = some d ∧ db'.lookup o.id = some d' ∧
      d'.customerID = d.customerID ∧ d'.items = d.items ∧
      (o.status = "" → d'.status = d.status) ∧
      (o.status ≠ "" → d'.status = o.status) ∧
      (o.paymentLink = "" → d'.paymentLink = d.paymentLink) ∧
      (o.paymentLink ≠ "" → d'.paymentLink = o.paymentLink) ∧
      r = ⟨o.id, d'.customerID, d'.status, d'.paymentLink, d'.items⟩ ∧
      (∀ k, k ≠ o.id → db'.lookup k = db.lookup k) := by
  obtain ⟨d, d', h1, h2, h3, h4, h5, h6, h7, h8⟩ := serviceUpdateOrder_spec o db r db' h
  refine ⟨d, d', h1, h2, h3, h4, ?_, ?_, ?_, ?_, h7, h8⟩
  · intro he; rw [h5, if_pos (beq_iff_eq.mpr he)]
  · intro he; rw [h5, if_neg (by simp only [beq_iff_eq]; exact he)]
  · intro he; rw [h6, if_pos (beq_iff_eq.mpr he)]
  · intro he; rw [h6, if_neg (by simp only [beq_iff_eq]; exact he)]

/-- Witness for C8: updating the stored `paid` order with only
`status = "ready"` keeps customer, items and payment link. -/
theorem claim_C8_witness :
    ∃ d d', List.lookup "o1" paidOrderDB = some d ∧
      List.lookup "o1" ([("o1", (⟨"c7", "ready", "http://pay",
        [⟨"1", "Burger", "p1", 2⟩]⟩ : OrderDoc))] : OrdersDB) = some d' ∧
      d'.customerID = d.customerID ∧ d'.items = d.items ∧
      (("ready" : String) = "" → d'.status = d.status) ∧
      (("ready" : String) ≠ "" → d'.status = "ready") ∧
      (("" : String) = "" → d'.paymentLink = d.paymentLink) ∧
      (("" : String) ≠ "" → d'.paymentLink = "") ∧
      (⟨"o1", "c7", "ready", "http://pay", [⟨"1", "Burger", "p1", 2⟩]⟩ : Order) =
        ⟨"o1", d'.customerID, d'.status, d'.paymentLink, d'.items⟩ ∧
      (∀ k, k ≠ "o1" → List.lookup k ([("o1", (⟨"c7", "ready", "http://pay",
        [⟨"1", "Burger", "p1", 2⟩]⟩ : OrderDoc))] : OrdersDB) = List.lookup k paidOrderDB) :=
  claim_C8_merge_update ⟨"o1", "", "ready", "", []⟩ paidOrderDB
    ⟨"o1", "c7", "ready", "http://pay", [⟨"1", "Burger", "p1", 2⟩]⟩
    [("o1", ⟨"c7", "ready", "http://pay", [⟨"1", "Burger", "p1", 2⟩]⟩)] rfl

/-! ### C4: status monotonicity -/

theorem statusBackward_self (st : String) : statusBackward st st = false := by
  unfold statusBackward
  cases h : statusRank st <;> simp

theorem statusForward_not_backward {a b : String} (h : statusForward a b = true) :
    statusBackward a b = false := by
  unfold statusForward at h
  unfold statusBackward
  cases ha : statusRank a <;> cases hb : statusRank b <;> rw [ha, hb] at h <;>
    simp_all

/-- C4 counterexample: nothing in `store.Update` or the order service
validates the direction of a status change, so `UpdateOrder` happily
moves an order backward: updating the stored `paid` order with
`status = "pending"` succeeds, and `pending` ranks strictly below `paid`
along `pending < waiting_payment < paid < preparing < ready`. -/
theorem claim_C4_backward_update_possible :
    serviceUpdateOrder ⟨"o1", "", "pending", "", []⟩ paidOrderDB =
      .ok (⟨"o1", "c7", "pending", "http://pay", [⟨"1", "Burger", "p1", 2⟩]⟩,
        [("o1", ⟨"c7", "pending", "http://pay", [⟨"1", "Burger", "p1", 2⟩]⟩)]) ∧
    statusBackward "paid" "pending" = true :=
  ⟨rfl, rfl⟩

/-- C4 (amended): the store itself enforces no ordering, so monotonicity
holds exactly when callers only ever supply forward statuses: if an
update's `status` field is empty or ranks at least the stored status,
then after the update the stored status (read back as the returned
order's status) has not moved backward. -/
theorem claim_C4_forward_updates_monotone (o : Order) (db : OrdersDB) (prev r : Order)
    (db' : OrdersDB) (hprev : storeGet o.id db = .ok prev)
    (hfwd : o.status = "" ∨ statusForward prev.status o.status = true)
    (h : serviceUpdateOrder o db = .ok (r, db')) :
    statusBackward prev.status r.status = false ∧ storeGet o.id db' = .ok r := by
  obtain ⟨d, d', h1, h2, h3, h4, h5, h6, h7, h8⟩ := serviceUpdateOrder_spec o db r db' h
  unfold storeGet at hprev
  rw [h1] at hprev
  injection hprev with hprev
  have hps : prev.status = d.status := by rw [← hprev]
  have hrs : r.status = d'.status := by rw [h7]
  constructor
  · rw [hps, hrs, h5]
    by_cases hse : (o.status == "") = true
    · rw [if_pos hse]
      exact statusBackward_self d.status
    · rw [if_neg hse]
      rcases hfwd with hfwd | hfwd
      · exact absurd (beq_iff_eq.mpr hfwd) hse
      · rw [hps] at hfwd
        exact statusForward_not_backward hfwd
  · unfold storeGet
    rw [h2, h7]

/-- Witness for C4's amended theorem: the forward update `paid → ready`
does not move the stored status backward. -/
theorem claim_C4_witness :
    statusBackward
      (Order.status ⟨"o1", "c7", "paid", "http://pay", [⟨"1", "Burger", "p1", 2⟩]⟩)
      (Order.status ⟨"o1", "c7", "ready", "http://pay", [⟨"1", "Burger", "p1", 2⟩]⟩) = false ∧
    storeGet "o1" [("o1", ⟨"c7", "ready", "http://pay", [⟨"1", "Burger", "p1", 2⟩]⟩)] =
      .ok ⟨"o1", "c7", "ready", "http://pay", [⟨"1", "Burger", "p1", 2⟩]⟩ :=
  claim_C4_forward_updates_monotone ⟨"o1", "", "ready", "", []⟩ paidOrderDB
    ⟨"o1", "c7", "paid", "http://pay", [⟨"1", "Burger", "p1", 2⟩]⟩
    ⟨"o1", "c7", "ready", "http://pay", [⟨"1", "Burger", "p1", 2⟩]⟩
    [("o1", ⟨"c7", "ready", "http://pay", [⟨"1", "Burger", "p1", 2⟩]⟩)]
    rfl (Or.inr rfl) rfl

end OMS

namespace OMS

/-! ### C7: the retry handler -/

theorem lookup_setHeader_self (k : String) (v : HVal) :
    ∀ h : Headers, List.lookup k (setHeader k v h) = some v
  | [] => by simp [setHeader, List.lookup]
  | (k0, v0) :: rest => by
    unfold setHeader
    by_cases hk : (k0 == k) = true
    · rw [if_pos hk]
      simp [List.lookup]
    · rw [if_neg hk]
      have hk' : (k == k0) = false := by
        rw [Bool.not_eq_true, beq_eq_false_iff_ne] at hk
        exact beq_eq_false_iff_ne.mpr fun hh => hk hh.symm
      simp only [List.lookup, hk']
      exact lookup_setHeader_self k v rest

/-- C7: `HandleRetry` reads the integer retry counter from the header
table (a nil table counts as empty, a missing or non-integer header as
0), increments it, and: below `MaxRetryCount` (3) it re-publishes the
body to the original exchange and routing key with the updated counter in
the headers, marked persistent, after sleeping the new count of time
units; otherwise it negatively acknowledges without requeue (so the
queue's dead-letter exchange takes over).  It never positively
acknowledges the delivery. -/
theorem claim_C7_handle_retry (d : Delivery) :
    (readRetryCount (d.headers.getD []) + 1 < MaxRetryCount →
      handleRetry d = .publish d.exchange d.routingKey
        (setHeader "x-retry-count" (.int (readRetryCount (d.headers.getD []) + 1))
          (d.headers.getD []))
        d.body true (readRetryCount (d.headers.getD []) + 1)) ∧
    (MaxRetryCount ≤ readRetryCount (d.headers.getD []) + 1 →
      handleRetry d = .nack false false) ∧
    readRetryCount (setHeader "x-retry-count"
      (.int (readRetryCount (d.headers.getD []) + 1)) (d.headers.getD [])) =
      readRetryCount (d.headers.getD []) + 1 ∧
    (∀ m, handleRetry d ≠ .ack m) := by
  refine ⟨?_, ?_, ?_, ?_⟩
  · intro h
    unfold handleRetry
    rw [if_neg (by omega)]
  · intro h
    unfold handleRetry
    rw [if_pos h]
  · unfold readRetryCount
    rw [lookup_setHeader_self]
  · intro m
    unfold handleRetry
    by_cases h : MaxRetryCount ≤ readRetryCount (d.headers.getD []) + 1
    · rw [if_pos h]
      intro hc
      cases hc
    · rw [if_neg h]
      intro hc
      cases hc

/-- Witness for C7: a first failure (no headers) is re-published with
counter 1 after one time unit; a failure whose counter already reads 2
is nacked without requeue. -/
theorem claim_C7_witness :
    handleRetry ⟨none, "order.created", "order.created", "payload"⟩ =
      .publish "order.created" "order.created" [("x-retry-count", .int 1)] "payload" true 1 ∧
    handleRetry ⟨some [("x-retry-count", .int 2)], "order.created", "order.created",
      "payload"⟩ = .nack false false :=
  ⟨(claim_C7_handle_retry ⟨none, "order.created", "order.created", "payload"⟩).1 (by decide),
    (claim_C7_handle_retry ⟨some [("x-retry-count", .int 2)], "order.created",
      "order.created", "payload"⟩).2.1 (by decide)⟩

/-! ### C9: cache invalidation on decrement -/

theorem cacheLookup_delItem (id : String) :
    ∀ c : Cache, cacheLookup id (cacheDelItem id c) = none
  | [] => rfl
  | (k, v) :: rest => by
    unfold cacheDelItem
    rw [List.filter_cons]
    by_cases hk : k = id
    · rw [if_neg (by simp [hk])]
      exact cacheLookup_delItem id rest
    · rw [if_pos (by simpa using hk)]
      unfold cacheLookup
      simp only [List.lookup,
        show (id == k) = false from beq_eq_false_iff_ne.mpr fun hh => hk hh.symm]
      exact cacheLookup_delItem id rest

/-- C9: after a successful `CachedStore.DecrementQuantity` — which writes
the durable store first and only then deletes the cache entry, never
writing the new value into the cache — the cache holds nothing for that
id, and the next `GetItem` misses the cache, returns the new durable
value and repopulates the cache with it. -/
theorem claim_C9_cache_invalidation (id : String) (amount : Int) (s : StockState)
    (c : Cache) (s' : StockState) (c' : Cache)
    (h : cachedDecrementQuantity id amount s c = .ok (s', c')) :
    c' = cacheDelItem id c ∧ cacheLookup id c' = none ∧
    ∃ it, pgGetItem id s' = .ok it ∧
      cachedGetItem id s' c' = .ok (it, cacheSetItem it c') := by
  unfold cachedDecrementQuantity at h
  rcases hd : decrementQuantity id amount s with _ | s1
  · rw [hd] at h
    cases h
  · rw [hd] at h
    injection h with h
    injection h with h1 h2
    subst h1
    subst h2
    refine ⟨rfl, cacheLookup_delItem id c, ?_⟩
    unfold decrementQuantity at hd
    rcases hu : sqlUpdateItems (fun it => it.id == id && decide (amount ≤ it.quantity))
        (fun it => { it with quantity := it.quantity - amount }) s.items with
        _ | ⟨items1, n⟩
    · rw [hu] at hd
      cases hd
    · rw [hu] at hd
      dsimp only at hd
      by_cases hn : n = 0
      · rw [if_pos hn] at hd
        cases hd
      · rw [if_neg hn] at hd
        injection hd with hd
        obtain ⟨-, hmap, hcnt⟩ := sqlUpdateItems_eq_ok.mp hu
        have hex : ∃ x, x ∈ s.items ∧
            (x.id == id && decide (amount ≤ x.quantity)) = true := by
          by_contra hno
          push_neg at hno
          refine hn (hcnt.trans (List.countP_eq_zero.mpr ?_))
          intro x hx
          exact fun hc => (hno x hx) hc
        have hsome : ((s1.items).find? (fun it => it.id == id)).isSome := by
          rw [← hd]
          dsimp only
          rw [hmap, List.find?_isSome]
          obtain ⟨x, hx, hpx⟩ := hex
          refine ⟨if (x.id == id && decide (amount ≤ x.quantity)) then
            { x with quantity := x.quantity - amount } else x, List.mem_map_of_mem _ hx, ?_⟩
          rw [if_pos hpx]
          rw [Bool.and_eq_true] at hpx
          exact hpx.1
        obtain ⟨y, hy⟩ := Option.isSome_iff_exists.mp hsome
        refine ⟨rowToPb y, ?_, ?_⟩
        · unfold pgGetItem
          rw [hy]
        · unfold cachedGetItem
          rw [cacheLookup_delItem id c]
          unfold pgGetItem
          rw [hy]

/-- Witness for C9: decrementing 3 Burgers invalidates the (stale)
cached copy, and the next read returns the new durable value 997 and
caches it. -/
theorem claim_C9_witness :
    cacheDelItem "1" [("1", ⟨"1", "Burger", "price_1SQYsL3th7a1Jo3bsOVNnRpm", 1000⟩)] =
      cacheDelItem "1" [("1", ⟨"1", "Burger", "price_1SQYsL3th7a1Jo3bsOVNnRpm", 1000⟩)] ∧
    cacheLookup "1"
      (cacheDelItem "1" [("1", ⟨"1", "Burger", "price_1SQYsL3th7a1Jo3bsOVNnRpm", 1000⟩)]) =
      none ∧
    ∃ it, pgGetItem "1"
        ⟨[⟨"1", "Burger", "price_1SQYsL3th7a1Jo3bsOVNnRpm", 997, 0⟩,
          ⟨"2", "Pommes", "price_POMMES_TODO", 1000, 0⟩], []⟩ = .ok it ∧
      cachedGetItem "1"
        ⟨[⟨"1", "Burger", "price_1SQYsL3th7a1Jo3bsOVNnRpm", 997, 0⟩,
          ⟨"2", "Pommes", "price_POMMES_TODO", 1000, 0⟩], []⟩
        (cacheDelItem "1" [("1", ⟨"1", "Burger", "price_1SQYsL3th7a1Jo3bsOVNnRpm", 1000⟩)]) =
        .ok (it, cacheSetItem it
          (cacheDelItem "1" [("1", ⟨"1", "Burger", "price_1SQYsL3th7a1Jo3bsOVNnRpm", 1000⟩)])) :=
  claim_C9_cache_invalidation "1" 3 seedState
    [("1", ⟨"1", "Burger", "price_1SQYsL3th7a1Jo3bsOVNnRpm", 1000⟩)]
    ⟨[⟨"1", "Burger", "price_1SQYsL3th7a1Jo3bsOVNnRpm", 997, 0⟩,
      ⟨"2", "Pommes", "price_POMMES_TODO", 1000, 0⟩], []⟩
    (cacheDelItem "1" [("1", ⟨"1", "Burger", "price_1SQYsL3th7a1Jo3bsOVNnRpm", 1000⟩)]) rfl

/-! ### C10: ReserveStock on an empty batch -/

/-- C10: reserving an empty item list succeeds, returns the freshly
generated reservation group id, inserts no reservation row and changes no
item (the state is returned untouched); a subsequent
`ConfirmReservation` for the order therefore finds no active
reservation and errors. -/
theorem claim_C10_empty_reserve (now : Int) (newID orderID : String) (s : StockState)
    (hres : s.reservations.filter (activeFor orderID) = []) :
    reserveStock now newID orderID [] s = .ok (s, newID) ∧
    confirmReservation orderID s = .error (.noActiveReservation orderID) := by
  constructor
  · rfl
  · unfold confirmReservation
    dsimp only
    rw [hres]
    rfl

/-- Witness for C10: the empty batch on the seeded catalog. -/
theorem claim_C10_witness :
    reserveStock 0 "r1" "o1" [] seedState = .ok (seedState, "r1") ∧
    confirmReservation "o1" seedState = .error (.noActiveReservation "o1") :=
  claim_C10_empty_reserve 0 "r1" "o1" seedState rfl

end OMS
